import Mathlib

/-!
Verification of the Activity/Audit Logging Engine
(`src/unnamed/part_004`, the activity log service).

The service stores one ordered collection of `ActivityLog` records under a
single storage key in the browser's durable key-value store.  Every mutation
is a read-modify-write of the whole collection.  We embed the collection as a
`List ActivityLog` and each operation as a pure function on it; the durable
store's fallibility is modelled explicitly where a claim is about failure
propagation (an `Except` layer whose read result and write outcome are
parameters).

Modelling conventions:
* `details` fields (`Record<string, unknown>` in the source) are observed by
  the code only through `JSON.stringify`; we represent such a field by its
  JSON rendering, an `Option String`.
* Timestamps are `Nat` (milliseconds since epoch); `Date.now()` becomes an
  explicit `now : Nat` argument at each call that reads the clock.
* `duration` is `Option Int` (`Date.now() - log.timestamp` may be negative
  under a non-monotone clock, so the subtraction is integer subtraction).
* The ISO date rendering (`new Date(ts).toISOString()`) is a host-environment
  primitive; CSV functions take it as an explicit parameter `iso : Nat → String`.
-/

namespace ActivityLogService

/-- The closed `ActivityType` enumeration (source lines 9–24). -/
inductive ActivityType where
  | IDENTITY_CREATED
  | IDENTITY_IMPORTED
  | IDENTITY_EXPORTED
  | DOCUMENT_CREATED
  | DOCUMENT_READ
  | DOCUMENT_DELETED
  | PERMISSION_GRANTED
  | PERMISSION_REVOKED
  | COLLECTION_VIEWED
  | APP_CONNECTED
  | APP_DISCONNECTED
  | AUTOFILL_EXECUTED
  | DATA_EXPORTED
  | SECURITY_CHANGED
  deriving DecidableEq, Repr

/-- The string value of each enum member (the TS enum maps each name to the
same string). -/
def ActivityType.toStr : ActivityType → String
  | .IDENTITY_CREATED => "IDENTITY_CREATED"
  | .IDENTITY_IMPORTED => "IDENTITY_IMPORTED"
  | .IDENTITY_EXPORTED => "IDENTITY_EXPORTED"
  | .DOCUMENT_CREATED => "DOCUMENT_CREATED"
  | .DOCUMENT_READ => "DOCUMENT_READ"
  | .DOCUMENT_DELETED => "DOCUMENT_DELETED"
  | .PERMISSION_GRANTED => "PERMISSION_GRANTED"
  | .PERMISSION_REVOKED => "PERMISSION_REVOKED"
  | .COLLECTION_VIEWED => "COLLECTION_VIEWED"
  | .APP_CONNECTED => "APP_CONNECTED"
  | .APP_DISCONNECTED => "APP_DISCONNECTED"
  | .AUTOFILL_EXECUTED => "AUTOFILL_EXECUTED"
  | .DATA_EXPORTED => "DATA_EXPORTED"
  | .SECURITY_CHANGED => "SECURITY_CHANGED"

/-- Record status: `'success' | 'failed' | 'warning'`. -/
inductive LogStatus where
  | success
  | failed
  | warning
  deriving DecidableEq, Repr

/-- The string value of a record status. -/
def LogStatus.toStr : LogStatus → String
  | .success => "success"
  | .failed => "failed"
  | .warning => "warning"

/-- Sub-step status: `'pending' | 'in_progress' | 'completed' | 'failed'`. -/
inductive SubStepStatus where
  | pending
  | in_progress
  | completed
  | failed
  deriving DecidableEq, Repr

/-- The string value of a sub-step status. -/
def SubStepStatus.toStr : SubStepStatus → String
  | .pending => "pending"
  | .in_progress => "in_progress"
  | .completed => "completed"
  | .failed => "failed"

/-- Structure `ActivitySubStep` (source lines 26–32); `details` is represented by its
JSON rendering. -/
structure ActivitySubStep where
  order : Nat
  description : String
  timestamp : Nat
  status : SubStepStatus
  details : Option String
  deriving DecidableEq, Repr

/-- The optional `metadata` attachment of a record (source lines 44–48). -/
structure LogMetadata where
  ipAddress : Option String
  userAgent : Option String
  location : Option String
  deriving DecidableEq, Repr

/-- Structure `ActivityLog` (source lines 34–49); `details` is represented by its JSON
rendering. -/
structure ActivityLog where
  id : String
  timestamp : Nat
  type : ActivityType
  description : String
  status : LogStatus
  details : Option String
  userDid : Option String
  subSteps : Option (List ActivitySubStep)
  duration : Option Int
  metadata : Option LogMetadata
  deriving DecidableEq, Repr

/-- Constant `MAX_LOGS = 1000` (source line 52). -/
def MAX_LOGS : Nat := 1000

/-- The record constructed at the top of `logActivity` (source lines 65–74):
fresh id, current timestamp, the given fields, no `duration`, no `metadata`. -/
def mkLog (id : String) (now : Nat) (ty : ActivityType) (description : String)
    (details : Option String) (userDid : Option String)
    (subSteps : Option (List ActivitySubStep)) (status : LogStatus) : ActivityLog :=
  { id := id
    timestamp := now
    type := ty
    description := description
    status := status
    details := details
    userDid := userDid
    subSteps := subSteps
    duration := none
    metadata := none }

/-- The collection update performed by `logActivity` (source lines 76–87):
`unshift` the new record, then `slice(0, MAX_LOGS)` when the length exceeds
`MAX_LOGS`. -/
def logActivityStore (log : ActivityLog) (logs : List ActivityLog) : List ActivityLog :=
  let logs1 := log :: logs
  if logs1.length > MAX_LOGS then logs1.take MAX_LOGS else logs1

/-- Function `logActivity` (source lines 57–90): build the record, update the stored
collection, return the new collection together with the returned id. -/
def logActivity (id : String) (now : Nat) (ty : ActivityType) (description : String)
    (details : Option String) (userDid : Option String)
    (subSteps : Option (List ActivitySubStep)) (status : LogStatus)
    (logs : List ActivityLog) : List ActivityLog × String :=
  let log := mkLog id now ty description details userDid subSteps status
  (logActivityStore log logs, log.id)

/-- The `findIndex` / update / conditional-write pattern shared by
`addSubStep` (lines 299–314) and `completeActivity` (lines 340–352):
locate the first record satisfying `p`, replace it by `f` of it and return
`some` of the new collection (a write happens); return `none` when
`findIndex` yields `-1` (no write happens). -/
def updateFirst (p : ActivityLog → Bool) (f : ActivityLog → ActivityLog) :
    List ActivityLog → Option (List ActivityLog)
  | [] => none
  | log :: rest =>
    if p log then some (f log :: rest)
    else (updateFirst p f rest).map (fun l => log :: l)

/-- Expression `log.subSteps || []` (source line 302). -/
def subStepsOf (log : ActivityLog) : List ActivitySubStep :=
  log.subSteps.getD []

/-- The sub-step constructed by `addSubStep` (source lines 304–310). -/
def mkSubStep (order : Nat) (description : String) (now : Nat)
    (status : SubStepStatus) (details : Option String) : ActivitySubStep :=
  { order := order
    description := description
    timestamp := now
    status := status
    details := details }

/-- Function `addSubStep` (source lines 290–315) as the write it issues: `some` of the
new collection when the record is found (the code then calls
`storage.local.set`), `none` when it is not (no write). -/
def addSubStep (logId : String) (description : String) (status : SubStepStatus)
    (details : Option String) (now : Nat) (logs : List ActivityLog) :
    Option (List ActivityLog) :=
  updateFirst (fun log => log.id == logId)
    (fun log =>
      let subSteps := subStepsOf log
      { log with
          subSteps :=
            some (subSteps ++ [mkSubStep (subSteps.length + 1) description now status details]) })
    logs

/-- The stored collection after `addSubStep` returns (unchanged when no write
was issued). -/
def addSubStepRun (logId : String) (description : String) (status : SubStepStatus)
    (details : Option String) (now : Nat) (logs : List ActivityLog) : List ActivityLog :=
  (addSubStep logId description status details now logs).getD logs

/-- Function `completeActivity` (source lines 333–353) as the write it issues:
`duration := Date.now() - log.timestamp`, new `status`, all other fields
spread unchanged; `none` when the record is not found (no write). -/
def completeActivity (logId : String) (status : LogStatus) (now : Nat)
    (logs : List ActivityLog) : Option (List ActivityLog) :=
  updateFirst (fun log => log.id == logId)
    (fun log =>
      { log with
          status := status
          duration := some ((now : Int) - (log.timestamp : Int)) })
    logs

/-- The stored collection after `completeActivity` returns. -/
def completeActivityRun (logId : String) (status : LogStatus) (now : Nat)
    (logs : List ActivityLog) : List ActivityLog :=
  (completeActivity logId status now logs).getD logs

/-! ### The durable-store failure layer

None of `logActivity`, `addSubStep`, `completeActivity` contains a
`try`/`catch`: each simply awaits `browser.storage.local.get` and
`browser.storage.local.set`, so a rejection of either promise propagates to
the caller.  We model a run against a store whose read result is
`getRes : Except String (List ActivityLog)` and whose write outcome is
`setErr : Option String` (the error the first `set`, if any is attempted,
fails with; `none` for a successful write). -/

/-- Function `logActivity` against a fallible store (source lines 57–90): read, build,
update, write, return the new collection and the id.  No error is caught. -/
def logActivityE (getRes : Except String (List ActivityLog)) (setErr : Option String)
    (log : ActivityLog) : Except String (List ActivityLog × String) := do
  let logs ← getRes
  let logs1 := logActivityStore log logs
  match setErr with
  | some e => Except.error e
  | none => Except.ok (logs1, log.id)

/-- Function `addSubStep` against a fallible store (source lines 290–315): read, look
up the record; `set` is only reached when the record was found.  No error is
caught.  The result is the stored collection on success. -/
def addSubStepE (getRes : Except String (List ActivityLog)) (setErr : Option String)
    (logId : String) (description : String) (status : SubStepStatus)
    (details : Option String) (now : Nat) : Except String (List ActivityLog) := do
  let logs ← getRes
  match addSubStep logId description status details now logs with
  | none => Except.ok logs
  | some logs1 =>
    match setErr with
    | some e => Except.error e
    | none => Except.ok logs1

/-- Function `completeActivity` against a fallible store (source lines 333–353), same
structure as `addSubStepE`.  No error is caught. -/
def completeActivityE (getRes : Except String (List ActivityLog)) (setErr : Option String)
    (logId : String) (status : LogStatus) (now : Nat) :
    Except String (List ActivityLog) := do
  let logs ← getRes
  match completeActivity logId status now logs with
  | none => Except.ok logs
  | some logs1 =>
    match setErr with
    | some e => Except.error e
    | none => Except.ok logs1

/-! ### CSV export (source lines 154–185) -/

/-- JavaScript's `Array.prototype.join(sep)`. -/
def joinSep (sep : String) : List String → String
  | [] => ""
  | [x] => x
  | x :: y :: xs => x ++ sep ++ joinSep sep (y :: xs)

/-- Expression `.replace(/"/g, '""')` on the character list of a string. -/
def escQuotesList : List Char → List Char
  | [] => []
  | c :: cs => if c = '"' then '"' :: '"' :: escQuotesList cs else c :: escQuotesList cs

/-- Expression `.replace(/"/g, '""')`: every double-quote character doubled. -/
def escQuotes (s : String) : String :=
  String.mk (escQuotesList s.data)

/-- The CSV header row, `headers.join(',')` (source lines 162, 184). -/
def csvHeader : String :=
  joinSep "," ["ID", "Timestamp", "Date", "Type", "Description", "Status",
    "Duration (ms)", "User DID", "Details", "Sub Steps"]

/-- One rendered sub-step in the `Sub Steps` column (source line 168). -/
def subStepCell (s : ActivitySubStep) : String :=
  toString s.order ++ ". " ++ s.description ++ " [" ++ s.status.toStr ++ "]"

/-- Expression `log.duration || ''` (source line 177): JavaScript truthiness renders a
missing duration and a zero duration both as the empty string. -/
def durationCell (d : Option Int) : String :=
  match d with
  | some v => if v = 0 then "" else toString v
  | none => ""

/-- The `Details` column value for a present `details` field (source lines
167, 179): the JSON text with quotes doubled, the whole field quoted. -/
def csvDetailsField (s : String) : String :=
  "\"" ++ escQuotes s ++ "\""

/-- The array of column values of one CSV row (source lines 165–181). -/
def csvCells (iso : Nat → String) (log : ActivityLog) : List String :=
  [ log.id,
    toString log.timestamp,
    iso log.timestamp,
    log.type.toStr,
    "\"" ++ escQuotes log.description ++ "\"",
    log.status.toStr,
    durationCell log.duration,
    log.userDid.getD "",
    "\"" ++ (match log.details with | some s => escQuotes s | none => "") ++ "\"",
    "\"" ++ (match log.subSteps with
             | some l => joinSep "; " (l.map subStepCell)
             | none => "") ++ "\"" ]

/-- One CSV data row, `[...].join(',')` (source line 181). -/
def csvRow (iso : Nat → String) (log : ActivityLog) : String :=
  joinSep "," (csvCells iso log)

/-- Function `exportActivityLogsAsCSV` (source lines 154–185) on a loaded collection. -/
def exportActivityLogsAsCSV (iso : Nat → String) (logs : List ActivityLog) : String :=
  if logs.length = 0 then "No logs to export"
  else joinSep "\n" (csvHeader :: logs.map (csvRow iso))

/-- Standard CSV quoted-field content parsing: consume characters up to the
closing quote, turning each doubled quote into one literal quote; returns the
content and the remainder after the closing quote.  This follows the spec's
words ("standard CSV quoting rules"), to be compared with the source's
escaping. -/
def csvUnquoteAux : List Char → Option (List Char × List Char)
  | [] => none
  | c :: cs =>
    if c = '"' then
      match cs with
      | '"' :: cs2 => (csvUnquoteAux cs2).map (fun p => ('"' :: p.1, p.2))
      | _ => some ([], cs)
    else (csvUnquoteAux cs).map (fun p => (c :: p.1, p.2))

/-- Standard CSV parsing of one whole quoted field, following the spec's
words: an opening quote, content with doubled quotes, a closing quote ending
the field. -/
def csvParseField (s : String) : Option String :=
  match s.data with
  | '"' :: cs =>
    match csvUnquoteAux cs with
    | some (content, []) => some (String.mk content)
    | _ => none
  | _ => none

/-! ### Statistics (source lines 358–407) -/

/-- The `(totalDuration, durationCount)` accumulation of
`getDetailedActivityStats` (source lines 371–372, 385–388): the JavaScript
test `if (log.duration)` is truthiness, so an absent duration and a zero
duration are both skipped. -/
def statsFold (logs : List ActivityLog) : Int × Nat :=
  logs.foldl
    (fun acc log =>
      match log.duration with
      | some d => if d = 0 then acc else (acc.1 + d, acc.2 + 1)
      | none => acc)
    (0, 0)

/-- Field `averageDuration` of `getDetailedActivityStats` (source line 405):
`totalDuration / durationCount` when `durationCount > 0`, else `undefined`. -/
def averageDuration (logs : List ActivityLog) : Option ℚ :=
  let p := statsFold logs
  if p.2 > 0 then some ((p.1 : ℚ) / (p.2 : ℚ)) else none

/-- Field `total` of `getDetailedActivityStats` (source line 399): the length of
the loaded collection, with no filtering of any kind. -/
def detailedTotal (logs : List ActivityLog) : Nat := logs.length

/-- Modelled from the spec's words: the arithmetic mean of `duration` over
exactly the records where `duration` is present, absent when no record has a
recorded duration.  To be compared with `averageDuration`. -/
def specAverageDuration (logs : List ActivityLog) : Option ℚ :=
  let ds : List Int := logs.filterMap (fun log => log.duration)
  if ds.length > 0 then some ((ds.sum : ℚ) / (ds.length : ℚ)) else none

/-- The duration of a record when the JavaScript truthiness test
`if (log.duration)` passes: present and nonzero. -/
def truthyDuration (log : ActivityLog) : Option Int :=
  match log.duration with
  | some d => if d = 0 then none else some d
  | none => none

/-! ### Records as read back from storage (claim C9)

The stored collection is arbitrary JSON: a record read back may lack fields
the TypeScript type declares.  `RawRecord` keeps `id` and `type` optional to
express such malformed records; the operations below are the source
functions' behavior on the fields they actually touch. -/

/-- A record as read back from the durable store; `id` and `type` may be
missing. -/
structure RawRecord where
  id : Option String
  type : Option String
  description : String
  timestamp : Nat
  status : Option LogStatus
  duration : Option Int
  deriving DecidableEq, Repr

/-- Function `getActivityLogsByTimeRange` (source lines 126–134) applied to the
collection as read back: a pure timestamp filter, touching no other field and
performing no shape validation. -/
def getActivityLogsByTimeRangeRaw (startTime endTime : Nat)
    (logs : List RawRecord) : List RawRecord :=
  logs.filter (fun log => decide (startTime ≤ log.timestamp) && decide (log.timestamp ≤ endTime))

/-- Field `total` of `getDetailedActivityStats` (source line 399) on the collection
as read back: `logs.length`, counting every stored record with no shape
validation. -/
def rawStatsTotal (logs : List RawRecord) : Nat := logs.length

/-! ### Iterated `addSubStep` (claim C2) -/

/-- Iteration: `k` successive `addSubStep` calls on the same id (each with the same
description, status, details and clock reading; the assigned orders do not
depend on these). -/
def iterAddSubStep (logId : String) (description : String) (status : SubStepStatus)
    (details : Option String) (now : Nat) : Nat → List ActivityLog → List ActivityLog
  | 0, logs => logs
  | Nat.succ k, logs =>
    iterAddSubStep logId description status details now k
      (addSubStepRun logId description status details now logs)

/-! ### Helper lemmas -/

theorem updateFirst_of_not_found (p : ActivityLog → Bool) (f : ActivityLog → ActivityLog)
    (logs : List ActivityLog) (h : ∀ l ∈ logs, p l = false) :
    updateFirst p f logs = none := by
  induction logs with
  | nil => rfl
  | cons a t ih =>
    have ha : p a = false := h a (List.mem_cons_self a t)
    simp [updateFirst, ha, ih (fun l hl => h l (List.mem_cons_of_mem a hl))]

theorem updateFirst_found (p : ActivityLog → Bool) (f : ActivityLog → ActivityLog)
    (pre : List ActivityLog) (r : ActivityLog) (post : List ActivityLog)
    (hpre : ∀ l ∈ pre, p l = false) (hr : p r = true) :
    updateFirst p f (pre ++ r :: post) = some (pre ++ f r :: post) := by
  induction pre with
  | nil => simp [updateFirst, hr]
  | cons a t ih =>
    have ha : p a = false := hpre a (List.mem_cons_self a t)
    simp only [List.cons_append, updateFirst, ha, Bool.false_eq_true, if_false,
      List.append_eq, ih (fun l hl => hpre l (List.mem_cons_of_mem a hl))]
    rfl

theorem take_thousand_cons (a : ActivityLog) (l : List ActivityLog) :
    (a :: l).take 1000 = a :: l.take 999 := by
  have h : (1000 : Nat) = 999 + 1 := rfl
  rw [h, List.take_succ_cons]

/-! ### Claim C1 -/

/-- Claim C1: after any `logActivity` call, from any stored collection, the
stored collection has length `min (old length + 1) MAX_LOGS` (hence at most
1000), the newly created record is at index 0, and the result is a prefix of
the new record followed by the old collection, so only the oldest
(highest-index) records are dropped and the newest record is always
retained; the returned id is the new record's id. -/
theorem logActivity_retention (id : String) (now : Nat) (ty : ActivityType)
    (descr : String) (det : Option String) (did : Option String)
    (ss : Option (List ActivitySubStep)) (st : LogStatus) (logs : List ActivityLog) :
    (logActivity id now ty descr det did ss st logs).1.length ≤ MAX_LOGS ∧
    (logActivity id now ty descr det did ss st logs).1.length =
        min (logs.length + 1) MAX_LOGS ∧
    (logActivity id now ty descr det did ss st logs).1.head? =
        some (mkLog id now ty descr det did ss st) ∧
    (logActivity id now ty descr det did ss st logs).1 <+:
        mkLog id now ty descr det did ss st :: logs ∧
    (logActivity id now ty descr det did ss st logs).2 = id := by
  simp only [logActivity, logActivityStore]
  split
  case isTrue h =>
    refine ⟨?_, ?_, ?_, ?_, rfl⟩
    · simp only [MAX_LOGS, List.length_cons, List.length_take] at h ⊢
      omega
    · simp only [MAX_LOGS, List.length_cons, List.length_take] at h ⊢
      omega
    · simp only [MAX_LOGS, take_thousand_cons, List.head?_cons]
    · simp only [MAX_LOGS]
      exact List.take_prefix 1000 _
  case isFalse h =>
    refine ⟨?_, ?_, rfl, List.prefix_rfl, rfl⟩
    · simp only [MAX_LOGS, List.length_cons] at h ⊢
      omega
    · simp only [MAX_LOGS, List.length_cons] at h ⊢
      omega

/-! ### Claim C2 -/

theorem addSubStep_found (logId descr : String) (sst : SubStepStatus)
    (det : Option String) (now : Nat) (pre post : List ActivityLog) (r : ActivityLog)
    (hpre : ∀ l ∈ pre, l.id ≠ logId) (hr : r.id = logId) :
    addSubStep logId descr sst det now (pre ++ r :: post) =
      some (pre ++
        { r with subSteps := some (subStepsOf r ++
            [mkSubStep ((subStepsOf r).length + 1) descr now sst det]) } :: post) := by
  unfold addSubStep
  exact updateFirst_found _ _ pre r post
    (fun l hl => by simp only [beq_eq_false_iff_ne]; exact hpre l hl)
    (by simp only [beq_iff_eq]; exact hr)

theorem iterAddSubStep_general (logId descr : String) (sst : SubStepStatus)
    (det : Option String) (now : Nat) (pre post : List ActivityLog) :
    (∀ l ∈ pre, l.id ≠ logId) →
    ∀ (k : Nat) (r : ActivityLog), r.id = logId →
    ∃ r1 : ActivityLog,
      iterAddSubStep logId descr sst det now k (pre ++ r :: post) = pre ++ r1 :: post ∧
      r1.id = r.id ∧
      subStepsOf r1 = subStepsOf r ++
        (List.range' ((subStepsOf r).length + 1) k).map
          (fun j => mkSubStep j descr now sst det) := by
  intro hpre k
  induction k with
  | zero =>
    intro r hr
    exact ⟨r, rfl, rfl, by simp [List.range']⟩
  | succ k ih =>
    intro r hr
    have hstep := addSubStep_found logId descr sst det now pre post r hpre hr
    set r1 : ActivityLog :=
      { r with subSteps := some (subStepsOf r ++
          [mkSubStep ((subStepsOf r).length + 1) descr now sst det]) } with hr1
    have hrun : addSubStepRun logId descr sst det now (pre ++ r :: post) =
        pre ++ r1 :: post := by
      simp [addSubStepRun, hstep]
    have hid1 : r1.id = logId := hr
    obtain ⟨r2, h2, hid2, hss2⟩ := ih r1 hid1
    refine ⟨r2, ?_, ?_, ?_⟩
    · show iterAddSubStep logId descr sst det now (k + 1) (pre ++ r :: post) =
        pre ++ r2 :: post
      rw [iterAddSubStep, hrun, h2]
    · rw [hid2]
    · have hss1 : subStepsOf r1 = subStepsOf r ++
          [mkSubStep ((subStepsOf r).length + 1) descr now sst det] := rfl
      rw [hss2, hss1]
      rw [List.range'_succ ((subStepsOf r).length + 1) k 1]
      simp [List.length_append, List.append_assoc]

/-- Claim C2: on a collection whose first record with the given id is `r`,
`addSubStep` appends exactly one sub-step to `r`, with `order` equal to `r`'s
current sub-step count plus 1 (hence 1 when `r` has no sub-steps); and when
`r` starts with no sub-steps, `k` repeated `addSubStep` calls on the same id
leave its sub-step orders equal to `[1, 2, ..., k]` — strictly increasing
with no gaps. -/
theorem addSubStep_order_progression (logId descr : String) (sst : SubStepStatus)
    (det : Option String) (now : Nat) (pre post : List ActivityLog) (r : ActivityLog)
    (hpre : ∀ l ∈ pre, l.id ≠ logId) (hr : r.id = logId) :
    addSubStep logId descr sst det now (pre ++ r :: post) =
      some (pre ++
        { r with subSteps := some (subStepsOf r ++
            [mkSubStep ((subStepsOf r).length + 1) descr now sst det]) } :: post) ∧
    (r.subSteps = none →
      ∀ k : Nat, ∃ r1 : ActivityLog,
        iterAddSubStep logId descr sst det now k (pre ++ r :: post) = pre ++ r1 :: post ∧
        (subStepsOf r1).map (fun s => s.order) = List.range' 1 k) := by
  refine ⟨addSubStep_found logId descr sst det now pre post r hpre hr, ?_⟩
  intro hnone k
  obtain ⟨r1, hiter, _, hss⟩ :=
    iterAddSubStep_general logId descr sst det now pre post hpre k r hr
  refine ⟨r1, hiter, ?_⟩
  have h0 : subStepsOf r = [] := by simp [subStepsOf, hnone]
  rw [hss, h0]
  simp only [List.nil_append, List.length_nil, Nat.zero_add, List.map_map]
  have : (fun s : ActivitySubStep => s.order) ∘ (fun j => mkSubStep j descr now sst det) =
      fun j => j := rfl
  rw [this, List.map_id']

/-- A concrete freshly-created record (no sub-steps) with id `"A"`. -/
def c2log : ActivityLog :=
  mkLog "A" 5 ActivityType.DOCUMENT_CREATED "doc" none none none LogStatus.success

/-- Witness for claim C2 at a concrete input: one record with id `"A"` and no
sub-steps; one `addSubStep` appends the order-1 step, and three iterated
calls leave orders `[1, 2, 3]`. -/
theorem addSubStep_order_progression_witness :
    (addSubStep "A" "step" SubStepStatus.completed none 7 ([] ++ c2log :: []) =
      some ([] ++
        { c2log with subSteps := some (subStepsOf c2log ++
            [mkSubStep ((subStepsOf c2log).length + 1) "step" 7
              SubStepStatus.completed none]) } :: [])) ∧
    (∃ r1 : ActivityLog,
      iterAddSubStep "A" "step" SubStepStatus.completed none 7 3 ([] ++ c2log :: []) =
        [] ++ r1 :: [] ∧
      (subStepsOf r1).map (fun s => s.order) = List.range' 1 3) := by
  have h := addSubStep_order_progression "A" "step" SubStepStatus.completed none 7
    [] [] c2log (by intro l hl; cases hl) rfl
  exact ⟨h.1, h.2 rfl 3⟩

/-! ### Claims C3 and C10 -/

theorem completeActivity_found (logId : String) (st : LogStatus) (now : Nat)
    (pre post : List ActivityLog) (r : ActivityLog)
    (hpre : ∀ l ∈ pre, l.id ≠ logId) (hr : r.id = logId) :
    completeActivity logId st now (pre ++ r :: post) =
      some (pre ++
        { r with
            status := st
            duration := some ((now : Int) - (r.timestamp : Int)) } :: post) := by
  unfold completeActivity
  exact updateFirst_found _ _ pre r post
    (fun l hl => by simp only [beq_eq_false_iff_ne]; exact hpre l hl)
    (by simp only [beq_iff_eq]; exact hr)

/-- Claim C3: on a collection whose first record with the given id is `r`,
`completeActivity` at time `now` sets that record's `duration` to
`now − r.timestamp` (computed from the record's original creation timestamp,
so it is nonnegative under a non-decreasing clock) and its `status` to the
given status; a second `completeActivity` at time `now2` still computes
`duration` as `now2 − r.timestamp` from the original creation timestamp, not
from the prior completion. -/
theorem completeActivity_duration_from_creation (logId : String) (st st2 : LogStatus)
    (now now2 : Nat) (pre post : List ActivityLog) (r : ActivityLog)
    (hpre : ∀ l ∈ pre, l.id ≠ logId) (hr : r.id = logId) :
    completeActivity logId st now (pre ++ r :: post) =
      some (pre ++
        { r with
            status := st
            duration := some ((now : Int) - (r.timestamp : Int)) } :: post) ∧
    (r.timestamp ≤ now → (0 : Int) ≤ (now : Int) - (r.timestamp : Int)) ∧
    completeActivityRun logId st2 now2
        (completeActivityRun logId st now (pre ++ r :: post)) =
      pre ++
        { r with
            status := st2
            duration := some ((now2 : Int) - (r.timestamp : Int)) } :: post := by
  have h1 := completeActivity_found logId st now pre post r hpre hr
  refine ⟨h1, ?_, ?_⟩
  · intro hle
    have : (r.timestamp : Int) ≤ (now : Int) := Int.ofNat_le.mpr hle
    omega
  · have hrun1 : completeActivityRun logId st now (pre ++ r :: post) =
        pre ++
          { r with
              status := st
              duration := some ((now : Int) - (r.timestamp : Int)) } :: post := by
      simp [completeActivityRun, h1]
    have h2 := completeActivity_found logId st2 now2 pre post
      ({ r with
          status := st
          duration := some ((now : Int) - (r.timestamp : Int)) }) hpre hr
    rw [hrun1]
    simp [completeActivityRun, h2]

/-- Witness for claim C3 at a concrete input: one record with id `"A"`
created at time 5, completed at time 9 and re-completed at time 11. -/
theorem completeActivity_duration_from_creation_witness :
    completeActivity "A" LogStatus.success 9 ([] ++ c2log :: []) =
      some ([] ++
        { c2log with
            status := LogStatus.success
            duration := some ((9 : Int) - (c2log.timestamp : Int)) } :: []) ∧
    (c2log.timestamp ≤ 9 → (0 : Int) ≤ (9 : Int) - (c2log.timestamp : Int)) ∧
    completeActivityRun "A" LogStatus.failed 11
        (completeActivityRun "A" LogStatus.success 9 ([] ++ c2log :: [])) =
      [] ++
        { c2log with
            status := LogStatus.failed
            duration := some ((11 : Int) - (c2log.timestamp : Int)) } :: [] :=
  completeActivity_duration_from_creation "A" LogStatus.success LogStatus.failed 9 11
    [] [] c2log (by intro l hl; cases hl) rfl

/-- Claim C10: on a collection whose first record with the given id is `r`,
`completeActivity` replaces only that record, and only its `status` and
`duration` fields: `id`, `timestamp`, `type`, `description`, `details`,
`userDid`, `subSteps` and `metadata` are unchanged, every record before and
after it is unchanged in place, and the collection's length is unchanged. -/
theorem completeActivity_frame (logId : String) (st : LogStatus) (now : Nat)
    (pre post : List ActivityLog) (r : ActivityLog)
    (hpre : ∀ l ∈ pre, l.id ≠ logId) (hr : r.id = logId) :
    ∃ r1 : ActivityLog,
      completeActivityRun logId st now (pre ++ r :: post) = pre ++ r1 :: post ∧
      r1.id = r.id ∧ r1.timestamp = r.timestamp ∧ r1.type = r.type ∧
      r1.description = r.description ∧ r1.details = r.details ∧
      r1.userDid = r.userDid ∧ r1.subSteps = r.subSteps ∧ r1.metadata = r.metadata ∧
      r1.status = st ∧ r1.duration = some ((now : Int) - (r.timestamp : Int)) ∧
      (completeActivityRun logId st now (pre ++ r :: post)).length =
        (pre ++ r :: post).length := by
  have h1 := completeActivity_found logId st now pre post r hpre hr
  refine ⟨{ r with
      status := st
      duration := some ((now : Int) - (r.timestamp : Int)) },
    ?_, rfl, rfl, rfl, rfl, rfl, rfl, rfl, rfl, rfl, rfl, ?_⟩
  · simp [completeActivityRun, h1]
  · simp [completeActivityRun, h1]

/-- Witness for claim C10 at a concrete input: a two-record collection whose
second record has id `"A"`. -/
theorem completeActivity_frame_witness :
    ∃ r1 : ActivityLog,
      completeActivityRun "A" LogStatus.success 9
          ([mkLog "B" 4 ActivityType.DOCUMENT_READ "other" none none none
              LogStatus.success] ++ c2log :: []) =
        [mkLog "B" 4 ActivityType.DOCUMENT_READ "other" none none none
            LogStatus.success] ++ r1 :: [] ∧
      r1.id = c2log.id ∧ r1.timestamp = c2log.timestamp ∧ r1.type = c2log.type ∧
      r1.description = c2log.description ∧ r1.details = c2log.details ∧
      r1.userDid = c2log.userDid ∧ r1.subSteps = c2log.subSteps ∧
      r1.metadata = c2log.metadata ∧
      r1.status = LogStatus.success ∧
      r1.duration = some ((9 : Int) - (c2log.timestamp : Int)) ∧
      (completeActivityRun "A" LogStatus.success 9
          ([mkLog "B" 4 ActivityType.DOCUMENT_READ "other" none none none
              LogStatus.success] ++ c2log :: [])).length =
        ([mkLog "B" 4 ActivityType.DOCUMENT_READ "other" none none none
            LogStatus.success] ++ c2log :: []).length :=
  completeActivity_frame "A" LogStatus.success 9
    [mkLog "B" 4 ActivityType.DOCUMENT_READ "other" none none none LogStatus.success]
    [] c2log
    (by
      intro l hl
      have : l = mkLog "B" 4 ActivityType.DOCUMENT_READ "other" none none none
          LogStatus.success := by
        cases hl with
        | head => rfl
        | tail _ h => cases h
      rw [this]
      decide)
    rfl

/-! ### Claim C4 -/

/-- Claim C4: on a collection containing no record with the given id,
`addSubStep` and `completeActivity` issue no write (the `findIndex` miss
short-circuits before any `set`), leave the stored collection exactly
unchanged, and do not throw — even when the store's `set` would fail,
the operations still return successfully. -/
theorem missing_id_noop (logId descr : String) (sst : SubStepStatus)
    (det : Option String) (lst : LogStatus) (now : Nat)
    (logs : List ActivityLog) (setErr : Option String)
    (h : ∀ l ∈ logs, l.id ≠ logId) :
    addSubStep logId descr sst det now logs = none ∧
    completeActivity logId lst now logs = none ∧
    addSubStepRun logId descr sst det now logs = logs ∧
    completeActivityRun logId lst now logs = logs ∧
    addSubStepE (Except.ok logs) setErr logId descr sst det now = Except.ok logs ∧
    completeActivityE (Except.ok logs) setErr logId lst now = Except.ok logs := by
  have hnone1 : addSubStep logId descr sst det now logs = none :=
    updateFirst_of_not_found _ _ logs
      (fun l hl => by simp only [beq_eq_false_iff_ne]; exact h l hl)
  have hnone2 : completeActivity logId lst now logs = none :=
    updateFirst_of_not_found _ _ logs
      (fun l hl => by simp only [beq_eq_false_iff_ne]; exact h l hl)
  refine ⟨hnone1, hnone2, ?_, ?_, ?_, ?_⟩
  · simp [addSubStepRun, hnone1]
  · simp [completeActivityRun, hnone2]
  · have hred : addSubStepE (Except.ok logs) setErr logId descr sst det now =
        (match addSubStep logId descr sst det now logs with
         | none => Except.ok logs
         | some logs1 =>
           match setErr with
           | some e => Except.error e
           | none => Except.ok logs1) := rfl
    rw [hred, hnone1]
  · have hred : completeActivityE (Except.ok logs) setErr logId lst now =
        (match completeActivity logId lst now logs with
         | none => Except.ok logs
         | some logs1 =>
           match setErr with
           | some e => Except.error e
           | none => Except.ok logs1) := rfl
    rw [hred, hnone2]

/-- Witness for claim C4 at a concrete input: a one-record collection with id
`"B"` and operations against the absent id `"A"`, with a failing `set`. -/
theorem missing_id_noop_witness :
    addSubStep "A" "step" SubStepStatus.completed none 7
        [mkLog "B" 4 ActivityType.DOCUMENT_READ "other" none none none
          LogStatus.success] = none ∧
    completeActivity "A" LogStatus.success 7
        [mkLog "B" 4 ActivityType.DOCUMENT_READ "other" none none none
          LogStatus.success] = none ∧
    addSubStepRun "A" "step" SubStepStatus.completed none 7
        [mkLog "B" 4 ActivityType.DOCUMENT_READ "other" none none none
          LogStatus.success] =
      [mkLog "B" 4 ActivityType.DOCUMENT_READ "other" none none none
        LogStatus.success] ∧
    completeActivityRun "A" LogStatus.success 7
        [mkLog "B" 4 ActivityType.DOCUMENT_READ "other" none none none
          LogStatus.success] =
      [mkLog "B" 4 ActivityType.DOCUMENT_READ "other" none none none
        LogStatus.success] ∧
    addSubStepE
        (Except.ok [mkLog "B" 4 ActivityType.DOCUMENT_READ "other" none none none
          LogStatus.success])
        (some "disk full") "A" "step" SubStepStatus.completed none 7 =
      Except.ok [mkLog "B" 4 ActivityType.DOCUMENT_READ "other" none none none
        LogStatus.success] ∧
    completeActivityE
        (Except.ok [mkLog "B" 4 ActivityType.DOCUMENT_READ "other" none none none
          LogStatus.success])
        (some "disk full") "A" LogStatus.success 7 =
      Except.ok [mkLog "B" 4 ActivityType.DOCUMENT_READ "other" none none none
        LogStatus.success] :=
  missing_id_noop "A" "step" SubStepStatus.completed none LogStatus.success 7
    [mkLog "B" 4 ActivityType.DOCUMENT_READ "other" none none none LogStatus.success]
    (some "disk full")
    (by
      intro l hl
      have : l = mkLog "B" 4 ActivityType.DOCUMENT_READ "other" none none none
          LogStatus.success := by
        cases hl with
        | head => rfl
        | tail _ h => cases h
      rw [this]
      decide)

/-! ### Claim C5 -/

/-- Counterexample to claim C5 as stated: when the durable store's read
fails, `addSubStep` and `completeActivity` do NOT swallow the storage error —
both raise it to their caller, since the source contains no try/catch. -/
theorem subStep_complete_raise_storage_error :
    addSubStepE (Except.error "storage unavailable") none "A" "step"
        SubStepStatus.completed none 0 =
      Except.error "storage unavailable" ∧
    completeActivityE (Except.error "storage unavailable") none "A"
        LogStatus.success 0 =
      Except.error "storage unavailable" :=
  ⟨rfl, rfl⟩

/-- Claim C5 (amended): when the underlying durable store fails, every one of
`logActivity`, `addSubStep` and `completeActivity` propagates the storage
error to its caller (none of them catches it): a read error propagates
through all three, and a write error propagates through `logActivity`
(which always writes) and through `addSubStep` and `completeActivity`
whenever they attempt a write (the record was found). -/
theorem storage_error_propagation (e : String) (setErr : Option String)
    (log : ActivityLog) (logId descr : String) (sst : SubStepStatus)
    (det : Option String) (lst : LogStatus) (now : Nat) (logs : List ActivityLog) :
    logActivityE (Except.error e) setErr log = Except.error e ∧
    addSubStepE (Except.error e) setErr logId descr sst det now = Except.error e ∧
    completeActivityE (Except.error e) setErr logId lst now = Except.error e ∧
    logActivityE (Except.ok logs) (some e) log = Except.error e ∧
    (∀ logs1 : List ActivityLog,
      addSubStep logId descr sst det now logs = some logs1 →
      addSubStepE (Except.ok logs) (some e) logId descr sst det now =
        Except.error e) ∧
    (∀ logs1 : List ActivityLog,
      completeActivity logId lst now logs = some logs1 →
      completeActivityE (Except.ok logs) (some e) logId lst now =
        Except.error e) := by
  refine ⟨rfl, rfl, rfl, rfl, ?_, ?_⟩
  · intro logs1 h
    have hred : addSubStepE (Except.ok logs) (some e) logId descr sst det now =
        (match addSubStep logId descr sst det now logs with
         | none => Except.ok logs
         | some logs1 =>
           match (some e : Option String) with
           | some e => Except.error e
           | none => Except.ok logs1) := rfl
    rw [hred, h]
  · intro logs1 h
    have hred : completeActivityE (Except.ok logs) (some e) logId lst now =
        (match completeActivity logId lst now logs with
         | none => Except.ok logs
         | some logs1 =>
           match (some e : Option String) with
           | some e => Except.error e
           | none => Except.ok logs1) := rfl
    rw [hred, h]

/-- Witness for claim C5 (amended) at a concrete input: a one-record
collection containing id `"A"`, so both operations attempt the write and the
failing `set` propagates; plus a concrete read failure. -/
theorem storage_error_propagation_witness :
    addSubStepE (Except.ok [c2log]) (some "disk full") "A" "step"
        SubStepStatus.completed none 7 = Except.error "disk full" ∧
    completeActivityE (Except.ok [c2log]) (some "disk full") "A"
        LogStatus.success 7 = Except.error "disk full" ∧
    logActivityE (Except.error "storage unavailable") none c2log =
      Except.error "storage unavailable" := by
  have h := storage_error_propagation "disk full" none c2log "A" "step"
    SubStepStatus.completed none LogStatus.success 7 [c2log]
  have hread := (storage_error_propagation "storage unavailable" none c2log "A"
    "step" SubStepStatus.completed none LogStatus.success 7 [c2log]).1
  exact ⟨h.2.2.2.2.1 _ rfl, h.2.2.2.2.2 _ rfl, hread⟩

/-! ### Claim C6 -/

theorem csvUnquoteAux_cons_ne (c : Char) (hc : c ≠ '"') (cs : List Char) :
    csvUnquoteAux (c :: cs) = (csvUnquoteAux cs).map (fun p => (c :: p.1, p.2)) := by
  cases cs with
  | nil =>
    rw [csvUnquoteAux.eq_3 c [] (by intro cs2 h; cases h)]
    rw [if_neg hc]
  | cons d rest =>
    by_cases hd : d = '"'
    · subst hd
      rw [csvUnquoteAux.eq_2, if_neg hc]
    · rw [csvUnquoteAux.eq_3 c (d :: rest)
        (by intro cs2 h; injection h with h1 _; exact hd h1)]
      rw [if_neg hc]

theorem csvUnquoteAux_quote_quote (cs : List Char) :
    csvUnquoteAux ('"' :: '"' :: cs) =
      (csvUnquoteAux cs).map (fun p => ('"' :: p.1, p.2)) := by
  rw [csvUnquoteAux.eq_2, if_pos rfl]

theorem csvUnquoteAux_esc (l : List Char) :
    csvUnquoteAux (escQuotesList l ++ ['"']) = some (l, []) := by
  induction l with
  | nil => rfl
  | cons c cs ih =>
    by_cases hc : c = '"'
    · subst hc
      have hE : escQuotesList ('"' :: cs) = '"' :: '"' :: escQuotesList cs := by
        simp [escQuotesList]
      rw [hE, List.cons_append, List.cons_append, csvUnquoteAux_quote_quote, ih]
      rfl
    · have hE : escQuotesList (c :: cs) = c :: escQuotesList cs := by
        simp [escQuotesList, hc]
      rw [hE, List.cons_append, csvUnquoteAux_cons_ne c hc, ih]
      rfl

/-- Claim C6: for a record whose `details` field is present with JSON text
`s`, the CSV row's `Details` column is `s` with every double quote doubled,
wrapped in double quotes; parsing that field back with standard CSV quoting
rules recovers `s` exactly. -/
theorem csv_details_roundtrip (iso : Nat → String) (log : ActivityLog) (s : String)
    (h : log.details = some s) :
    (csvCells iso log).get? 8 = some (csvDetailsField s) ∧
    csvParseField (csvDetailsField s) = some s := by
  constructor
  · simp [csvCells, h, csvDetailsField]
  · have hdata : (csvDetailsField s).data = '"' :: (escQuotesList s.data ++ ['"']) := by
      simp [csvDetailsField, escQuotes, String.data_append]
    unfold csvParseField
    rw [hdata]
    simp [csvUnquoteAux_esc]

/-- A concrete record carrying a `details` JSON text with an embedded double
quote. -/
def c6log : ActivityLog :=
  { mkLog "A" 5 ActivityType.DOCUMENT_READ "doc" none none none LogStatus.success with
      details := some "pi:\"3\"" }

/-- Witness for claim C6 at a concrete input. -/
theorem csv_details_roundtrip_witness :
    (csvCells (fun _ => "") c6log).get? 8 = some (csvDetailsField "pi:\"3\"") ∧
    csvParseField (csvDetailsField "pi:\"3\"") = some "pi:\"3\"" :=
  csv_details_roundtrip (fun _ => "") c6log "pi:\"3\"" rfl

/-! ### Claim C7 -/

/-- Claim C7: the CSV export of the empty collection is exactly the string
`No logs to export` (so no header row is produced); the header is the fixed
ten-column line; and on a non-empty collection the export is that header
followed, newline-separated, by exactly one data row per record. -/
theorem csv_empty_sentinel_and_header (iso : Nat → String) (logs : List ActivityLog) :
    exportActivityLogsAsCSV iso [] = "No logs to export" ∧
    csvHeader =
      "ID,Timestamp,Date,Type,Description,Status,Duration (ms),User DID,Details,Sub Steps" ∧
    (logs ≠ [] →
      exportActivityLogsAsCSV iso logs =
        csvHeader ++ "\n" ++ joinSep "\n" (logs.map (csvRow iso)) ∧
      (logs.map (csvRow iso)).length = logs.length) := by
  refine ⟨rfl, by rfl, ?_⟩
  intro hne
  cases logs with
  | nil => exact absurd rfl hne
  | cons a t => exact ⟨rfl, by simp⟩

/-- Witness for claim C7 at a concrete input: a one-record collection. -/
theorem csv_empty_sentinel_and_header_witness :
    exportActivityLogsAsCSV (fun _ => "") [] = "No logs to export" ∧
    exportActivityLogsAsCSV (fun _ => "") [c6log] =
      csvHeader ++ "\n" ++ joinSep "\n" ([c6log].map (csvRow (fun _ => ""))) ∧
    ([c6log].map (csvRow (fun _ => ""))).length = 1 := by
  have h := csv_empty_sentinel_and_header (fun _ => "") [c6log]
  have h3 := h.2.2 (by intro hcontra; cases hcontra)
  exact ⟨h.1, h3.1, h3.2⟩

/-! ### Claim C8 -/

theorem statsFold_general (logs : List ActivityLog) : ∀ (a : Int) (n : Nat),
    List.foldl
      (fun acc log =>
        match log.duration with
        | some d => if d = 0 then acc else (acc.1 + d, acc.2 + 1)
        | none => acc)
      (a, n) logs =
    (a + (logs.filterMap truthyDuration).sum,
     n + (logs.filterMap truthyDuration).length) := by
  induction logs with
  | nil => intro a n; simp
  | cons l t ih =>
    intro a n
    cases hd : l.duration with
    | none =>
      simp only [List.foldl_cons, hd, List.filterMap_cons, truthyDuration]
      simp [ih]
    | some d =>
      by_cases hz : d = 0
      · simp only [List.foldl_cons, hd, hz, List.filterMap_cons, truthyDuration]
        simp [ih]
      · simp only [List.foldl_cons, hd, List.filterMap_cons, truthyDuration,
          if_neg hz]
        rw [ih]
        simp only [List.sum_cons, List.length_cons, Prod.mk.injEq]
        exact ⟨by omega, by omega⟩

theorem statsFold_eq (logs : List ActivityLog) :
    statsFold logs = ((logs.filterMap truthyDuration).sum,
      (logs.filterMap truthyDuration).length) := by
  have h := statsFold_general logs 0 0
  simpa [statsFold] using h

/-- A record with a given id and duration, all other fields fixed. -/
def c8log (i : String) (d : Option Int) : ActivityLog :=
  { mkLog i 0 ActivityType.DOCUMENT_READ "r" none none none LogStatus.success with
      duration := d }

/-- Counterexample to claim C8 as stated: for a collection with durations 0
and 100 (both present), the code's `averageDuration` is 100 — the JavaScript
truthiness test `if (log.duration)` skips the zero duration — while the
arithmetic mean over the records where duration is present is 50. -/
theorem averageDuration_zero_skipped_cex :
    averageDuration [c8log "a" (some 0), c8log "b" (some 100)] = some 100 ∧
    specAverageDuration [c8log "a" (some 0), c8log "b" (some 100)] = some 50 ∧
    averageDuration [c8log "a" (some 0), c8log "b" (some 100)] ≠
      specAverageDuration [c8log "a" (some 0), c8log "b" (some 100)] := by
  have hfm : List.filterMap truthyDuration
      [c8log "a" (some 0), c8log "b" (some 100)] = [100] := rfl
  have hfp : List.filterMap (fun log : ActivityLog => log.duration)
      [c8log "a" (some 0), c8log "b" (some 100)] = [0, 100] := rfl
  have h1 : averageDuration [c8log "a" (some 0), c8log "b" (some 100)] =
      some 100 := by
    rw [averageDuration, statsFold_eq, hfm]
    norm_num
  have h2 : specAverageDuration [c8log "a" (some 0), c8log "b" (some 100)] =
      some 50 := by
    rw [specAverageDuration]
    rw [hfp]
    norm_num
  refine ⟨h1, h2, ?_⟩
  rw [h1, h2]
  intro hcontra
  have : (100 : ℚ) = 50 := Option.some.inj hcontra
  norm_num at this

/-- Claim C8 (amended): `averageDuration` is the arithmetic mean of
`duration` over exactly the records whose duration is present and nonzero
(the truthy ones), and is absent when no record has a nonzero duration —
even if zero durations are present; in particular, for three records with
durations 100, 200 and none, it is 150 and `total` is 3. -/
theorem averageDuration_truthy_mean (logs : List ActivityLog) :
    (averageDuration logs =
      if (logs.filterMap truthyDuration).length = 0 then none
      else some (((logs.filterMap truthyDuration).sum : ℚ) /
        ((logs.filterMap truthyDuration).length : ℚ))) ∧
    averageDuration [c8log "a" (some 100), c8log "b" (some 200), c8log "c" none] =
      some 150 ∧
    detailedTotal [c8log "a" (some 100), c8log "b" (some 200), c8log "c" none] = 3 ∧
    averageDuration [c8log "z" (some 0)] = none := by
  have h150 : averageDuration
      [c8log "a" (some 100), c8log "b" (some 200), c8log "c" none] = some 150 := by
    have hfm : List.filterMap truthyDuration
        [c8log "a" (some 100), c8log "b" (some 200), c8log "c" none] =
        [100, 200] := rfl
    rw [averageDuration, statsFold_eq, hfm]
    norm_num
  refine ⟨?_, h150, rfl, rfl⟩
  unfold averageDuration
  rw [statsFold_eq]
  by_cases hlen : (logs.filterMap truthyDuration).length = 0
  · simp [hlen]
  · simp [hlen, Nat.pos_of_ne_zero hlen]

/-! ### Claim C9 -/

/-- A stored record missing both `id` and `type`. -/
def malformedRecord : RawRecord :=
  { id := none
    type := none
    description := "legacy"
    timestamp := 5
    status := none
    duration := none }

/-- Counterexample to claim C9 as stated: a record missing both `id` and
`type` is not skipped — the time-range query returns it and the statistics
total counts it. -/
theorem malformed_not_skipped_cex :
    malformedRecord.id = none ∧ malformedRecord.type = none ∧
    getActivityLogsByTimeRangeRaw 0 10 [malformedRecord] = [malformedRecord] ∧
    rawStatsTotal [malformedRecord] = 1 := by
  refine ⟨rfl, rfl, ?_, rfl⟩
  rfl

/-- Claim C9 (amended): the Query Engine and Statistics Aggregator perform no
shape validation: a stored record missing `id` and `type` appears in the
time-range filter results whenever its timestamp is in range, and every
stored record, malformed or not, contributes to the statistics total. -/
theorem malformed_not_skipped (logs : List RawRecord) (m : RawRecord)
    (hm : m ∈ logs) (_hid : m.id = none) (_hty : m.type = none)
    (s e : Nat) (hs : s ≤ m.timestamp) (he : m.timestamp ≤ e) :
    rawStatsTotal logs = logs.length ∧ m ∈ getActivityLogsByTimeRangeRaw s e logs := by
  refine ⟨rfl, ?_⟩
  simp [getActivityLogsByTimeRangeRaw, List.mem_filter, hm, hs, he]

/-- Witness for claim C9 at a concrete input. -/
theorem malformed_not_skipped_witness :
    rawStatsTotal [malformedRecord] = 1 ∧
    malformedRecord ∈ getActivityLogsByTimeRangeRaw 0 10 [malformedRecord] := by
  have h := malformed_not_skipped [malformedRecord] malformedRecord
    (List.mem_singleton.mpr rfl) rfl rfl 0 10 (by decide) (by decide)
  exact ⟨h.1, h.2⟩

end ActivityLogService
